import Mathlib

/-!
Verification of the SPLINTER B-spline builder (`src/bsplinebuilder.cpp`,
`bsplinebuilder.h`, the C interface `src/cinterface/bsplinebuilder.cpp` and the
Go binding `include/cinterface/bsplinebuilder.go`).

Modelling conventions:
* C++ `double` values are modelled as rationals (`ℚ`); the claims under study
  are about the exact arithmetic expressions the code evaluates, not about
  floating-point rounding.
* `unsigned int` arithmetic is 32-bit and wraps; wherever a subtraction can
  underflow we model the wrapped value explicitly (see `uSub32` and the
  comments on `knotVectorMovingAverage`).
* Eigen matrices are modelled with Mathlib `Matrix` over `ℚ`; sparse versus
  dense storage is a performance distinction with no semantic content, so both
  are the same mathematical matrix.
* C++ functions that `throw` are modelled as `Option`/`Except` returning
  `none`/`.error` on the throwing paths.
-/

namespace Splinter

/-! ## Knot vector construction (bsplinebuilder.cpp lines 434-645) -/

/-- Model of `BSpline::Builder::extractUniqueSorted` (bsplinebuilder.cpp lines
637-645): `std::sort` followed by `unique_copy`, i.e. the sorted list of the
distinct values. -/
def extractUniqueSorted (values : List ℚ) : List ℚ :=
  (values.insertionSort (· ≤ ·)).dedup

/-- Result of `std::floor(unsigned/unsigned)`: natural division. -/
def natFloorDiv (a b : ℕ) : ℕ := a / b

/-- Wrapped 32-bit unsigned subtraction `a - b` for `a b < 2^32`. -/
def uSub32 (a b : ℕ) : ℕ := (a + 2 ^ 32 - b) % 2 ^ 32

/-- Model of `BSpline::Builder::knotVectorMovingAverage` (bsplinebuilder.cpp
lines 464-509).  The C++ computes, in `unsigned int` arithmetic,
`k = degree - 1`, `w = k + 3` and the interior count `n - k - 2`.  For
`degree = 0` the value `k` wraps to `2^32 - 1`, and then `w = k + 3` wraps back
to `2`, and `n - k - 2 = n - 1` (mod `2^32`); in every case (any
`degree < 2^32 - 2`) the wrapped values coincide with `w = degree + 2` and,
under the guard `degree + 1 ≤ n`, interior count `n - degree - 1`, which is how
we write them.  Throws (returns `none`) when there are fewer than `degree + 1`
unique values. -/
def knotVectorMovingAverage (values : List ℚ) (degree : ℕ) : Option (List ℚ) :=
  let unique := extractUniqueSorted values
  let n := unique.length
  let w := degree + 2
  if n < degree + 1 then none
  else
    let interior := (List.range (n - degree - 1)).map (fun i =>
      (((List.range w).map (fun j => unique.getD (i + j) 0)).sum) / (w : ℚ))
    some (List.replicate (degree + 1) (unique.headD 0) ++ interior ++
          List.replicate (degree + 1) (unique.getLastD 0))

/-- Modelled from the spec: `linspace` lives in `utilities.h`, which is not in
the sources.  The spec (section 4.1) says: "interior = max(n−p−1, 0)
equidistant values in [lo, hi] inclusive (linspace: endpoints lo and hi
included when interior ≥ 2)".  The standard linspace realisation of that
description: step `dx = (stop - start)/(num - 1)` when `num > 1` (else `0`),
value `i` is `start + i·dx`; a single requested value is `start` itself. -/
def linspace (start stop : ℚ) (num : ℕ) : List ℚ :=
  let dx := if 1 < num then (stop - start) / ((num : ℚ) - 1) else 0
  (List.range num).map (fun i => start + (i : ℚ) * dx)

/-- Model of `BSpline::Builder::knotVectorEquidistant` (bsplinebuilder.cpp
lines 511-559).  `bounds` entries are `NaN`-or-value in C++, modelled as
`Option ℚ` (`none` = NaN = fall back to the data extent).  As in
`knotVectorMovingAverage`, the `unsigned` expression `n - k - 2`
(`k = degree - 1`) equals `n - degree - 1` under the guard `degree + 1 ≤ n`.
Note the clamps: the code prepends `lo` and appends `hi` only `degree` times
(the loops run `i < degree`), relying on `linspace` to supply the final copy of
each. -/
def knotVectorEquidistant (values : List ℚ) (degree : ℕ) (numBasisFunctions : ℕ)
    (boundsLo boundsHi : Option ℚ) (padding : ℚ) : Option (List ℚ) :=
  let unique := extractUniqueSorted values
  let n := if 0 < numBasisFunctions then numBasisFunctions else unique.length
  if n < degree + 1 then none
  else
    let lo0 := boundsLo.getD (unique.headD 0)
    let hi0 := boundsHi.getD (unique.getLastD 0)
    let pad := (hi0 - lo0) * padding
    let lo := lo0 - pad
    let hi := hi0 + pad
    let numIntKnots := n - degree - 1
    let knots := linspace lo hi numIntKnots
    some (List.replicate degree lo ++ knots ++ List.replicate degree hi)

/-- Bucket means: walk the unique values, each window `w` consuming `w` values
and contributing their mean.  Models the `index`-cursor loop in
`knotVectorBuckets` (bsplinebuilder.cpp lines 615-624). -/
def bucketMeans (u : List ℚ) (windows : List ℕ) : List ℚ :=
  match windows with
  | [] => []
  | w :: ws => ((u.take w).sum / (w : ℚ)) :: bucketMeans (u.drop w) ws

/-- Model of `BSpline::Builder::knotVectorBuckets` (bsplinebuilder.cpp lines
561-635), the EXPERIMENTAL strategy; default `maxSegments = 10` from the
header declaration. -/
def knotVectorBuckets (values : List ℚ) (degree : ℕ) (maxSegments : ℕ := 10) :
    Option (List ℚ) :=
  let unique := extractUniqueSorted values
  let n := unique.length
  if n < degree + 1 then none
  else
    let ni0 := n - degree - 1
    let ns0 := ni0 + degree + 1
    let ni := if ns0 > maxSegments ∧ maxSegments ≥ degree + 1
              then maxSegments - degree - 1 else ni0
    if ni > n - degree - 1 then none
    else
      let w := if 0 < ni then natFloorDiv n ni else 0
      let res := n - w * ni
      let windows := (List.range ni).map (fun i => if i < res then w + 1 else w)
      let knots := bucketMeans unique windows
      some (List.replicate (degree + 1) (unique.headD 0) ++ knots ++
            List.replicate (degree + 1) (unique.getLastD 0))

/-! ## Builder configuration and setters (bsplinebuilder.h lines 21-181,
cinterface/bsplinebuilder.cpp) -/

/-- The `BSpline::KnotSpacing` enumeration (bsplinebuilder.h lines 35-40). -/
inductive KnotSpacing
  | AS_SAMPLED
  | EQUIDISTANT
  | EXPERIMENTAL
deriving DecidableEq

/-- The `BSpline::Smoothing` enumeration (bsplinebuilder.h lines 22-27). -/
inductive Smoothing
  | NONE
  | IDENTITY
  | PSPLINE
deriving DecidableEq

/-- The mutable fields of `BSpline::Builder` (bsplinebuilder.h lines 170-180).
`bounds` entries model `std::array<double,2>` slots whose `NaN` markers become
`none`. -/
structure BuilderConfig where
  degrees : List ℕ
  numBasisFunctions : List ℕ
  knotSpacing : KnotSpacing
  smoothing : Smoothing
  alpha : ℚ
  padding : ℚ
  weights : List ℚ
  bounds : List (Option ℚ × Option ℚ)
  hfsIters : ℕ
deriving DecidableEq

/-- Model of the private helper `getBSplineDegrees` (bsplinebuilder.h lines
143-148): throws when `degree > 5`, else a constant vector of length
`numVariables`. -/
def getBSplineDegrees (numVariables degree : ℕ) : Option (List ℕ) :=
  if degree > 5 then none else some (List.replicate numVariables degree)

/-- The builder constructor defaults (bsplinebuilder.cpp lines 21-32) for a
data table with `d` variables. -/
def defaultBuilderConfig (d : ℕ) : BuilderConfig where
  degrees := List.replicate d 3
  numBasisFunctions := List.replicate d 0
  knotSpacing := KnotSpacing.AS_SAMPLED
  smoothing := Smoothing.NONE
  alpha := 1 / 10
  padding := 0
  weights := []
  bounds := []
  hfsIters := 0

/-- Each setter is modelled the way the C interface drives it: the C++ setter
either assigns the member and returns, or throws before any assignment, and
the `extern "C"` wrapper catches the exception and records the message
(cinterface/bsplinebuilder.cpp).  So a setter maps the stored configuration to
a new configuration plus an optional error message, and on error the
configuration is returned untouched.  `setAlpha` models `Builder::alpha`
(bsplinebuilder.h lines 48-55). -/
def setAlpha (c : BuilderConfig) (a : ℚ) : BuilderConfig × Option String :=
  if a < 0 then (c, some "BSpline::Builder::alpha: alpha must be non-negative.")
  else ({ c with alpha := a }, Option.none)

/-- Model of the scalar `Builder::degree(unsigned int)` overload
(bsplinebuilder.h lines 59-63), which validates through
`getBSplineDegrees`. -/
def setDegreeScalar (d : ℕ) (c : BuilderConfig) (degree : ℕ) :
    BuilderConfig × Option String :=
  match getBSplineDegrees d degree with
  | some ds => ({ c with degrees := ds }, Option.none)
  | Option.none =>
      (c, some "BSpline::Builder: Only degrees in range [0, 5] are supported.")

/-- Model of the vector `Builder::degree(std::vector<unsigned int>)` overload
(bsplinebuilder.h lines 65-71).  Note: it validates only the length, never the
individual degrees. -/
def setDegreeVector (d : ℕ) (c : BuilderConfig) (degrees : List ℕ) :
    BuilderConfig × Option String :=
  if degrees.length ≠ d then
    (c, some "BSpline::Builder: Inconsistent length on degree vector.")
  else ({ c with degrees := degrees }, Option.none)

/-- Model of the vector `Builder::numBasisFunctions` overload
(bsplinebuilder.h lines 79-85). -/
def setNumBasisFunctionsVector (d : ℕ) (c : BuilderConfig) (nbf : List ℕ) :
    BuilderConfig × Option String :=
  if nbf.length ≠ d then
    (c, some "BSpline::Builder: Inconsistent length on numBasisFunctions vector.")
  else ({ c with numBasisFunctions := nbf }, Option.none)

/-- Model of `Builder::padding` (bsplinebuilder.h lines 99-106). -/
def setPadding (c : BuilderConfig) (pd : ℚ) : BuilderConfig × Option String :=
  if pd < 0 then
    (c, some "BSpline::Builder::padding: padding must be non-negative.")
  else ({ c with padding := pd }, Option.none)

/-- Model of `Builder::weights` (bsplinebuilder.h lines 108-115) for a data
table with `m` samples. -/
def setWeights (m : ℕ) (c : BuilderConfig) (w : List ℚ) :
    BuilderConfig × Option String :=
  if w.length ≠ m then
    (c, some "BSpline::Builder::weights: weight vector length should equal number of samples in DataTable")
  else ({ c with weights := w }, Option.none)

/-- Model of `Builder::bounds` (bsplinebuilder.h lines 117-124). -/
def setBounds (d : ℕ) (c : BuilderConfig) (b : List (Option ℚ × Option ℚ)) :
    BuilderConfig × Option String :=
  if b.length ≠ 0 ∧ b.length ≠ d then
    (c, some "BSpline::Builder::bounds: bounds vector length should be 0 or equal to number of variables in DataTable")
  else ({ c with bounds := b }, Option.none)

/-- Model of `splinter_bspline_builder_set_knot_spacing`
(cinterface/bsplinebuilder.cpp lines 73-94): integer codes 0, 1, 2 select the
enumerators, anything else sets the error string and leaves the builder
untouched. -/
def setKnotSpacingCode (c : BuilderConfig) (code : ℤ) :
    BuilderConfig × Option String :=
  if code = 0 then ({ c with knotSpacing := KnotSpacing.AS_SAMPLED }, Option.none)
  else if code = 1 then ({ c with knotSpacing := KnotSpacing.EQUIDISTANT }, Option.none)
  else if code = 2 then ({ c with knotSpacing := KnotSpacing.EXPERIMENTAL }, Option.none)
  else (c, some "Error: Invalid knot spacing!")

/-- Model of `splinter_bspline_builder_set_smoothing`
(cinterface/bsplinebuilder.cpp lines 96-117). -/
def setSmoothingCode (c : BuilderConfig) (code : ℤ) :
    BuilderConfig × Option String :=
  if code = 0 then ({ c with smoothing := Smoothing.NONE }, Option.none)
  else if code = 1 then ({ c with smoothing := Smoothing.IDENTITY }, Option.none)
  else if code = 2 then ({ c with smoothing := Smoothing.PSPLINE }, Option.none)
  else (c, some "Error: Invalid smoothing!")

/-! ## Linear-system assembly, HFS iteration and solve
(bsplinebuilder.cpp lines 69-217, 269-386) -/

open Matrix

/-- Model of `BSpline::Builder::getWeightMatrix` (bsplinebuilder.cpp lines
368-386) for a data table with `m` samples: the identity when no weights were
set, else the diagonal matrix of the stored weights. -/
def getWeightMatrix (m : ℕ) (weights : List ℚ) : Matrix (Fin m) (Fin m) ℚ :=
  if weights.length = 0 then 1
  else Matrix.diagonal (fun i => weights.getD i 0)

/-- A linear system `A·x = b` as assembled by `computeCoefficients`: the
number of rows depends on the smoothing mode, the column count is always the
total number `N` of basis functions. -/
structure LinSystem (N : ℕ) where
  rows : ℕ
  A : Matrix (Fin rows) (Fin N) ℚ
  b : Fin rows → ℚ

/-- Model of the assembly part of `BSpline::Builder::computeCoefficients`
(bsplinebuilder.cpp lines 69-136), parametrised over the basis matrix `B`
(whose construction by `computeBasisFunctionMatrix` needs the Cox-de Boor
evaluator of `bspline.cpp`, outside this development), the sample values `y`,
the stored weights, `alpha` and the second-order difference matrix `D`.
The statements mirror the source's order: `A = B`, `b = y`, then for
IDENTITY `A = Bᵀ*B`, `b = Bᵀ*b`, `A += alpha*I`; for PSPLINE
`A = BtWB + l*Dᵀ*D` with `l = alpha` and `b = Bᵀ*W*b`. -/
def assembleSystem {m N r : ℕ} (mode : Smoothing) (B : Matrix (Fin m) (Fin N) ℚ)
    (y : Fin m → ℚ) (weights : List ℚ) (alpha : ℚ)
    (D : Matrix (Fin r) (Fin N) ℚ) : LinSystem N :=
  match mode with
  | Smoothing.NONE => ⟨m, B, y⟩
  | Smoothing.IDENTITY =>
      ⟨N, Bᵀ * B + alpha • (1 : Matrix (Fin N) (Fin N) ℚ), Bᵀ *ᵥ y⟩
  | Smoothing.PSPLINE =>
      let W := getWeightMatrix m weights
      let BtW := Bᵀ * W
      let BtWB := BtW * B
      ⟨N, BtWB + (alpha • Dᵀ) * D, (Bᵀ * W) *ᵥ y⟩

/-- Squared Euclidean norm, Eigen's `squaredNorm()`. -/
def sumSq {n : ℕ} (v : Fin n → ℚ) : ℚ := ∑ i, v i * v i

/-- Dense matrix inverse: Eigen's `PartialPivLU<DenseMatrix>(A).inverse()`
computes the exact inverse of an invertible `A`, i.e. `det⁻¹ • adjugate`.
(For a singular `A` Eigen's result is unspecified; the claims under study
compare the two denominator conventions, which use the inverse through the
same expression on both sides.) -/
def qInv {n : ℕ} (A : Matrix (Fin n) (Fin n) ℚ) : Matrix (Fin n) (Fin n) ℚ :=
  A.det⁻¹ • A.adjugate

/-- Model of one iteration of the HFS loop (bsplinebuilder.cpp lines 141-176,
default `HFS_USE_BOOK_TAU_SIGMA` undefined so the "Method 2" branch is
compiled): given the current `A`, produce the next `A`.  The C++ expression
for the sigma-squared denominator is
`_data.getNumSamples() - _data.getNumVariables() - ED`, where the first
subtraction happens in `unsigned int` arithmetic and only then is the result
converted to `double` — hence `uSub32 m d`, which wraps when `m < d`. -/
def hfsStep (m d : ℕ) {N r : ℕ} (B : Matrix (Fin m) (Fin N) ℚ)
    (W : Matrix (Fin m) (Fin m) ℚ) (D : Matrix (Fin r) (Fin N) ℚ)
    (y : Fin m → ℚ) (A : Matrix (Fin N) (Fin N) ℚ) : Matrix (Fin N) (Fin N) ℚ :=
  let BtW := Bᵀ * W
  let BtWB := BtW * B
  let Ainv := qInv A
  let G := Ainv * BtWB
  let ED := G.trace
  let x := Ainv *ᵥ (BtW *ᵥ y)
  let tau_squared := sumSq (D *ᵥ x) / ED
  let sigma_squared := sumSq (y - B *ᵥ x) / ((uSub32 m d : ℚ) - ED)
  let l := sigma_squared / tau_squared
  BtWB + (l • Dᵀ) * D

/-- The HFS update exactly as claim C5 states it: `A_inv` the dense inverse,
`ED = trace(A_inv·BᵀWB)`, `c = A_inv·(BᵀW·y)`, `tau² = ‖D·c‖²/ED`,
`sigma² = ‖y - B·c‖²/(m - d - ED)` over the integers, `lambda = sigma²/tau²`
and `A = BᵀWB + lambda·Dᵀ·D`.  Kept separate from `hfsStep` (the model of the
code) so the two can be compared. -/
def hfsStepClaim (m d : ℕ) {N r : ℕ} (B : Matrix (Fin m) (Fin N) ℚ)
    (W : Matrix (Fin m) (Fin m) ℚ) (D : Matrix (Fin r) (Fin N) ℚ)
    (y : Fin m → ℚ) (A : Matrix (Fin N) (Fin N) ℚ) : Matrix (Fin N) (Fin N) ℚ :=
  let BtWB := Bᵀ * W * B
  let Ainv := qInv A
  let ED := (Ainv * BtWB).trace
  let c := Ainv *ᵥ ((Bᵀ * W) *ᵥ y)
  let tau_squared := sumSq (D *ᵥ c) / ED
  let sigma_squared := sumSq (y - B *ᵥ c) / ((m : ℚ) - (d : ℚ) - ED)
  let l := sigma_squared / tau_squared
  BtWB + l • (Dᵀ * D)

/-- The left-hand-side matrix handed to the solver in the PSPLINE branch: the
initial `A = BᵀWB + alpha·DᵀD` of line 130, transformed by `hfsIters`
executions of the loop body (bsplinebuilder.cpp lines 141-176). -/
def psplineFinalA (m d : ℕ) {N r : ℕ} (B : Matrix (Fin m) (Fin N) ℚ)
    (W : Matrix (Fin m) (Fin m) ℚ) (D : Matrix (Fin r) (Fin N) ℚ)
    (y : Fin m → ℚ) (alpha : ℚ) (hfsIters : ℕ) : Matrix (Fin N) (Fin N) ℚ :=
  (hfsStep m d B W D y)^[hfsIters] (Bᵀ * W * B + (alpha • Dᵀ) * D)

/-- One row of the second-order finite-difference matrix: entries +1, -2, +1
at columns `k`, `k + leftProd`, `k + 2·leftProd`, in the order the three
`D.insert` calls are made (bsplinebuilder.cpp lines 336-341 and 349-355). -/
def sofdRow (k lp : ℕ) : List (ℕ × ℚ) := [(k, 1), (k + lp, -2), (k + 2 * lp, 1)]

/-- The rows `getSecondOrderFiniteDifferenceMatrix` emits for the block of
axis `a` of the reversed dims (bsplinebuilder.cpp lines 311-360): `leftProd`
and `rightProd` are the for-loop products of the dims before and after `a`,
the sub-block index `j` sweeps `rightProd`, `l` sweeps `dims[a] - 2`, and for
`a = 0` one row is emitted at `k = j·leftProd·dims[a] + l` while otherwise an
identity block of `leftProd` rows is emitted at `k = blkBaseCol + l·leftProd
+ n` with `blkBaseCol = j·leftProd·dims[a]`. -/
def sofdAxisRows (dims : List ℕ) (a : ℕ) : List (List (ℕ × ℚ)) :=
  let leftProd := (dims.take a).foldl (fun acc x => acc * x) 1
  let rightProd := (dims.drop (a + 1)).foldl (fun acc x => acc * x) 1
  (List.range rightProd).flatMap (fun j =>
    (List.range (dims.getD a 0 - 2)).flatMap (fun l =>
      if a = 0 then [sofdRow (j * leftProd * dims.getD a 0 + l) leftProd]
      else (List.range leftProd).map (fun n =>
        sofdRow (j * leftProd * dims.getD a 0 + l * leftProd + n) leftProd)))

/-- Model of `BSpline::Builder::getSecondOrderFiniteDifferenceMatrix`
(bsplinebuilder.cpp lines 269-365) given the per-axis basis-function counts
`n₀…n_{d-1}` of the skeletal spline: throws when some axis has fewer than
three basis functions, else emits the sparse rows, in the source's loop order,
over `dims = reverse of the basis counts`.  A row is its ordered list of
`(column, value)` insertions. -/
def getSecondOrderFiniteDifferenceMatrix (nbf : List ℕ) :
    Option (List (List (ℕ × ℚ))) :=
  let dims := nbf.reverse
  if nbf.all (fun x => 3 ≤ x) then
    some ((List.range dims.length).flatMap (fun a => sofdAxisRows dims a))
  else none

/-- The row layout exactly as claim C4 states it, kept separate from the
model of the source so the two can be compared: for each axis `a` of the
reversed dims, sub-block `j < rightProd`, `l < dims[a] - 2` and
`n < leftProd` (the claim's `n = 0` degenerate case covers `a = 0`, where
`leftProd = 1`), one row `(+1, -2, +1)` at columns `base + l·leftProd + n`,
`+leftProd`, `+2·leftProd`, with `base = j·leftProd·dims[a]` and
`leftProd`/`rightProd` the products of the dims before/after `a`. -/
def sofdRowsClaim (dims : List ℕ) : List (List (ℕ × ℚ)) :=
  (List.range dims.length).flatMap (fun a =>
    let leftProd := (dims.take a).prod
    (List.range (dims.drop (a + 1)).prod).flatMap (fun j =>
      (List.range (dims.getD a 0 - 2)).flatMap (fun l =>
        (List.range leftProd).map (fun n =>
          [(j * leftProd * dims.getD a 0 + l * leftProd + n, (1 : ℚ)),
           (j * leftProd * dims.getD a 0 + l * leftProd + n + leftProd, -2),
           (j * leftProd * dims.getD a 0 + l * leftProd + n + 2 * leftProd,
            1)]))))

/-- The exception message of the dense-solver failure path
(bsplinebuilder.cpp line 212). -/
def solverFailureMessage : String :=
  "BSpline::Builder::computeBSplineCoefficients: Failed to solve for B-spline coefficients."

/-- Modelled from the spec: the `SparseLU` and `DenseQR` solvers live in
`linearsolvers.h`, which is not in the sources; per spec section 4.4 each
either succeeds with a solution or fails, so they enter the model as their
outcomes `sparseResult`/`denseResult`.  The control flow is the model of
bsplinebuilder.cpp lines 182-216: `solveAsDense = rows < 100`; a non-dense
system first tries the sparse solver and downgrades to dense on failure; the
dense path throws when the dense solver fails too. -/
def solveLinearSystem {V : Type} (rows : ℕ) (sparseResult denseResult : Option V) :
    Except String V :=
  if rows < 100 then
    match denseResult with
    | some v => Except.ok v
    | Option.none => Except.error solverFailureMessage
  else
    match sparseResult with
    | some v => Except.ok v
    | Option.none =>
      match denseResult with
      | some v => Except.ok v
      | Option.none => Except.error solverFailureMessage

/-- Model of `splinter_bspline_builder_build` (cinterface/bsplinebuilder.cpp
lines 205-227): a thrown exception becomes a null handle plus the error
string; success returns the handle with no error. -/
def splinterBuilderBuild {V : Type} (coreBuild : Except String V) :
    Option V × Option String :=
  match coreBuild with
  | Except.ok v => (some v, Option.none)
  | Except.error e => (Option.none, some e)

/-- Model of the Go binding's `BSplineBuilder.Build`
(include/cinterface/bsplinebuilder.go lines 206-222): when the error channel
is set, free any handle and return `nil` plus the error. -/
def goBuild {V : Type} (coreBuild : Except String V) : Option V × Option String :=
  match splinterBuilderBuild coreBuild with
  | (_, some e) => (Option.none, some e)
  | (p, Option.none) => (p, Option.none)

/-! ## The Go binding's DataTable.AddColumns
(include/cinterface/bsplinebuilder.go lines 91-115) -/

/-- Outcome of a call to the Go binding's `DataTable.AddColumns`: it can
return `nil` without touching the core library, return `ErrLengthMismatch`
before any core call, panic while indexing the empty concatenated slice, or
forward data to `splinter_datatable_add_samples_col_major`. -/
inductive AddColumnsOutcome
  | success
  | lengthMismatch
  | panicEmptyIndex
  | coreCall (data : List ℚ) (numSamples : ℕ) (dimension : ℕ)
deriving DecidableEq

/-- Model of `DataTable.AddColumns` (include/cinterface/bsplinebuilder.go
lines 91-115).  Zero columns return immediately; a column whose length
differs from the first column's returns `ErrLengthMismatch`; otherwise the
columns are concatenated and handed to the core with sample count
`n = len(columns[0])` and dimensionality `len(columns) - 1` — except that the
Go expression `&concat[0]` panics when the concatenation is empty (all
columns of length 0). -/
def addColumns (columns : List (List ℚ)) : AddColumnsOutcome :=
  match columns with
  | [] => AddColumnsOutcome.success
  | c0 :: rest =>
    if rest.all (fun c => c.length = c0.length) then
      let concat := (c0 :: rest).flatten
      if concat.length = 0 then AddColumnsOutcome.panicEmptyIndex
      else AddColumnsOutcome.coreCall concat c0.length ((c0 :: rest).length - 1)
    else AddColumnsOutcome.lengthMismatch

/-! ## Theorems for the knot-vector claims -/

/-- C1: the claim asserts that every strategy returns a non-decreasing,
(p+1)-regular knot vector — in particular EQUIDISTANT with interior knot count
`n-p-1` equal to 0 or 1, and EXPERIMENTAL when a bucket mean coincides with an
endpoint.  The code contradicts this: `knotVectorEquidistant` prepends `lo` and
appends `hi` only `degree` times, so with 0 interior knots (degree 3, unique
values 0,1,2,3) the result is `[0,0,0,3,3,3]` where the first and last values
appear 3 times, not 4; and `knotVectorBuckets` (degree 1, unique values
0,1,2,3,4) produces a final one-element bucket whose mean is the last sample,
so the last value appears 3 times, not 2. -/
theorem C1_regularity_defect_eval :
    Splinter.knotVectorEquidistant [0, 1, 2, 3] 3 0 Option.none Option.none 0 =
      some [0, 0, 0, 3, 3, 3] ∧
    ([0, 0, 0, 3, 3, 3] : List ℚ).count 0 = 3 ∧
    ([0, 0, 0, 3, 3, 3] : List ℚ).count 3 = 3 ∧
    Splinter.knotVectorBuckets [0, 1, 2, 3, 4] 1 =
      some [0, 0, 1/2, 5/2, 4, 4, 4] ∧
    ([0, 0, 1/2, 5/2, 4, 4, 4] : List ℚ).count 4 = 3 := by
  have h4 : Splinter.extractUniqueSorted [0, 1, 2, 3] = [0, 1, 2, 3] := by decide
  have h5 : Splinter.extractUniqueSorted [0, 1, 2, 3, 4] = [0, 1, 2, 3, 4] := by
    decide
  refine ⟨?_, by decide, by decide, ?_, ?_⟩
  · simp only [Splinter.knotVectorEquidistant, h4, Splinter.linspace]
    norm_num [List.replicate]
  · simp only [Splinter.knotVectorBuckets, h5, Splinter.natFloorDiv]
    norm_num [List.replicate, List.range_succ, Splinter.bucketMeans]
  · norm_num [List.count_cons]

/-- C2: `knotVectorMovingAverage` (AS_SAMPLED) fails exactly when the number
`n` of sorted unique values is below `p + 1`, and otherwise returns `U₀`
repeated `p+1` times, the `n-k-2 = n-p-1` interior moving averages
`interior_i = (1/w)·Σ_{j<w} U_{i+j}` (window `w = k+3`, `k = p-1`; over the
integers, and equally under the code's wrapping `unsigned` arithmetic, these
are `w = p+2` and interior count `n-p-1`), then `U_{n-1}` repeated `p+1`
times; the total length is `n + p + 1`. -/
theorem C2_knotVectorMovingAverage_spec (values : List ℚ) (p : ℕ) :
    ((Splinter.extractUniqueSorted values).length < p + 1 →
      Splinter.knotVectorMovingAverage values p = Option.none) ∧
    (p + 1 ≤ (Splinter.extractUniqueSorted values).length →
      Splinter.knotVectorMovingAverage values p =
        some (List.replicate (p + 1) ((Splinter.extractUniqueSorted values).headD 0) ++
          (List.range ((Splinter.extractUniqueSorted values).length - p - 1)).map
            (fun i => (1 / ((p : ℚ) + 2)) *
              ((List.range (p + 2)).map
                (fun j => (Splinter.extractUniqueSorted values).getD (i + j) 0)).sum) ++
          List.replicate (p + 1) ((Splinter.extractUniqueSorted values).getLastD 0)) ∧
      ∀ l, Splinter.knotVectorMovingAverage values p = some l →
        l.length = (Splinter.extractUniqueSorted values).length + p + 1) := by
  constructor
  · intro h
    simp only [Splinter.knotVectorMovingAverage, if_pos h]
  · intro h
    have hni : ¬ ((Splinter.extractUniqueSorted values).length < p + 1) := by omega
    constructor
    · simp only [Splinter.knotVectorMovingAverage, if_neg hni, Option.some.injEq]
      have hf : (fun i : ℕ => (((List.range (p + 2)).map
            (fun j => (Splinter.extractUniqueSorted values).getD (i + j) 0)).sum) /
            ((p + 2 : ℕ) : ℚ)) =
          (fun i : ℕ => (1 / ((p : ℚ) + 2)) *
            ((List.range (p + 2)).map
              (fun j => (Splinter.extractUniqueSorted values).getD (i + j) 0)).sum) := by
        funext i
        push_cast
        ring
      rw [hf]
    · intro l hl
      simp only [Splinter.knotVectorMovingAverage, if_neg hni, Option.some.injEq] at hl
      subst hl
      simp only [List.length_append, List.length_replicate, List.length_map,
        List.length_range]
      omega

/-- Witness for C2 at concrete inputs: one value too few fails; the spec's S1
samples with degree 3 give the expected clamped moving-average vector. -/
theorem C2_knotVectorMovingAverage_spec_witness :
    Splinter.knotVectorMovingAverage [0, 1, 2] 3 = Option.none ∧
    Splinter.knotVectorMovingAverage [0, 1, 2, 3, 4] 3 =
      some [0, 0, 0, 0, 2, 4, 4, 4, 4] := by
  have h3 : Splinter.extractUniqueSorted [0, 1, 2] = [0, 1, 2] := by decide
  have h5 : Splinter.extractUniqueSorted [0, 1, 2, 3, 4] = [0, 1, 2, 3, 4] := by
    decide
  constructor
  · exact (C2_knotVectorMovingAverage_spec [0, 1, 2] 3).1 (by rw [h3]; decide)
  · have h := ((C2_knotVectorMovingAverage_spec [0, 1, 2, 3, 4] 3).2
      (by rw [h5]; decide)).1
    rw [h, h5]
    norm_num [List.replicate, List.range_succ]

/-- C8: the claim (spec scenario S6) asserts that with samples 0..4, degree 3,
EQUIDISTANT, bounds [-1, 5] and padding 0.1, both the first and the last knot
have multiplicity 4 at the padded values -1.6 and 5.6.  The code disagrees on
the upper end: `n = 5` unique values give one interior `linspace` knot, which
is `lo`, and the clamping loops add only `degree = 3` copies of each bound, so
-8/5 appears 4 times but 28/5 only 3 times. -/
theorem C8_equidistant_bounds_padding_eval :
    Splinter.knotVectorEquidistant [0, 1, 2, 3, 4] 3 0 (some (-1)) (some 5) (1/10) =
      some [-8/5, -8/5, -8/5, -8/5, 28/5, 28/5, 28/5] ∧
    ([-8/5, -8/5, -8/5, -8/5, 28/5, 28/5, 28/5] : List ℚ).count (-8/5) = 4 ∧
    ([-8/5, -8/5, -8/5, -8/5, 28/5, 28/5, 28/5] : List ℚ).count (28/5) = 3 := by
  have h5 : Splinter.extractUniqueSorted [0, 1, 2, 3, 4] = [0, 1, 2, 3, 4] := by
    decide
  refine ⟨?_, by norm_num [List.count_cons], by norm_num [List.count_cons]⟩
  simp only [Splinter.knotVectorEquidistant, h5, Splinter.linspace]
  norm_num [List.replicate, List.range_succ]

/-! ## Theorems for the difference-matrix claim -/

/-- Length of a `flatMap` over `List.range` whose pieces all have the same
length. -/
theorem flatMap_range_length {β : Type} (m c : ℕ) (f : ℕ → List β)
    (h : ∀ j, (f j).length = c) : ((List.range m).flatMap f).length = m * c := by
  rw [List.length_flatMap]
  have hmap : (List.range m).map (List.length ∘ f) =
      (List.range m).map (fun _ => c) :=
    List.map_congr_left (fun a _ => h a)
  rw [hmap, List.map_const', List.sum_replicate, smul_eq_mul, List.length_range]

/-- The per-axis block of the source coincides with the uniform formula of
the claim: the `a = 0` special case of the code is the `n = 0` degenerate
case of the claim, because `leftProd = 1` there. -/
theorem sofdAxisRows_eq_claim (dims : List ℕ) (a : ℕ) :
    Splinter.sofdAxisRows dims a =
      (List.range (dims.drop (a + 1)).prod).flatMap (fun j =>
        (List.range (dims.getD a 0 - 2)).flatMap (fun l =>
          (List.range (dims.take a).prod).map (fun n =>
            [(j * (dims.take a).prod * dims.getD a 0 + l * (dims.take a).prod +
                n, (1 : ℚ)),
             (j * (dims.take a).prod * dims.getD a 0 + l * (dims.take a).prod +
                n + (dims.take a).prod, -2),
             (j * (dims.take a).prod * dims.getD a 0 + l * (dims.take a).prod +
                n + 2 * (dims.take a).prod, 1)]))) := by
  unfold Splinter.sofdAxisRows
  rw [← List.prod_eq_foldl, ← List.prod_eq_foldl]
  by_cases ha : a = 0
  · subst ha
    simp only [List.take_zero, List.prod_nil, eq_self_iff_true, if_true]
    apply List.flatMap_congr
    intro j _
    apply List.flatMap_congr
    intro l _
    have hr1 : List.range 1 = [0] := rfl
    simp [Splinter.sofdRow, hr1]
  · simp only [if_neg ha]
    apply List.flatMap_congr
    intro j _
    apply List.flatMap_congr
    intro l _
    apply List.map_congr_left
    intro n _
    simp [Splinter.sofdRow]

/-- Row count of one axis block: `rightProd · leftProd · (dims[a] - 2)`. -/
theorem sofdAxisRows_length (dims : List ℕ) (a : ℕ) :
    (Splinter.sofdAxisRows dims a).length =
      (dims.drop (a + 1)).prod * (dims.take a).prod * (dims.getD a 0 - 2) := by
  unfold Splinter.sofdAxisRows
  rw [← List.prod_eq_foldl, ← List.prod_eq_foldl]
  by_cases ha : a = 0
  · subst ha
    simp only [List.take_zero, List.prod_nil, eq_self_iff_true, if_true]
    have hinner : ∀ j : ℕ, (((List.range (dims.getD 0 0 - 2)).flatMap
        (fun l => [Splinter.sofdRow (j * 1 * dims.getD 0 0 + l) 1]))).length =
        (dims.getD 0 0 - 2) * 1 :=
      fun j => flatMap_range_length _ 1 _ (fun l => rfl)
    rw [flatMap_range_length _ _ _ hinner]
    ring
  · simp only [if_neg ha]
    have hinner : ∀ j : ℕ, ((List.range (dims.getD a 0 - 2)).flatMap
        (fun l => (List.range (dims.take a).prod).map
          (fun n => Splinter.sofdRow
            (j * (dims.take a).prod * dims.getD a 0 + l * (dims.take a).prod + n)
            (dims.take a).prod))).length =
        (dims.getD a 0 - 2) * (dims.take a).prod :=
      fun j => flatMap_range_length _ _ _ (fun l => by
        rw [List.length_map, List.length_range])
    rw [flatMap_range_length _ _ _ hinner]
    ring

/-- Splitting a product of dims around position `a`. -/
theorem prod_split (dims : List ℕ) (a : ℕ) (ha : a < dims.length) :
    dims.prod = (dims.take a).prod * dims.getD a 0 * (dims.drop (a + 1)).prod := by
  conv_lhs => rw [← List.take_append_drop a dims]
  rw [List.prod_append, List.drop_eq_getElem_cons ha, List.prod_cons,
    List.getD_eq_getElem dims 0 ha, mul_assoc]

/-- The largest column index a difference-matrix row can touch is below
`leftProd · dims[a] · rightProd`. -/
theorem col_bound {L R dd j l n : ℕ} (hj : j < R) (hl : l < dd - 2) (hn : n < L)
    (hdd : 3 ≤ dd) : j * L * dd + l * L + n + 2 * L < L * dd * R := by
  have h2 : l + 3 ≤ dd := by omega
  have h1 : j + 1 ≤ R := hj
  calc j * L * dd + l * L + n + 2 * L
      < j * L * dd + l * L + 3 * L := by omega
    _ = j * L * dd + (l + 3) * L := by ring
    _ ≤ j * L * dd + dd * L := by
        have h3 := Nat.mul_le_mul_right L h2
        omega
    _ = (j + 1) * (L * dd) := by ring
    _ ≤ R * (L * dd) := Nat.mul_le_mul_right _ h1
    _ = L * dd * R := by ring

/-- C4: building the second-order difference matrix `D` from the per-axis
basis counts fails exactly when some axis has fewer than 3 basis functions;
on success, with `dims` the reversed counts, the rows are emitted exactly in
the claimed order — axis `a` ascending, sub-block `j < rightProd` ascending,
`l < dims[a] - 2` ascending, then `n < leftProd` (degenerate `n = 0` for
`a = 0`) — each row holding `(+1, -2, +1)` at columns `base + l·leftProd + n`,
`+leftProd`, `+2·leftProd` with `base = j·leftProd·dims[a]`; the number of
rows is the sum over axes of `rightProd·leftProd·(dims[a] - 2)`; and every
entry's column index lies below `N`, the product of all basis counts. -/
theorem C4_difference_matrix_layout (nbf : List ℕ) :
    (Splinter.getSecondOrderFiniteDifferenceMatrix nbf = Option.none ↔
      ∃ x ∈ nbf, x < 3) ∧
    (∀ rows, Splinter.getSecondOrderFiniteDifferenceMatrix nbf = some rows →
      rows = Splinter.sofdRowsClaim nbf.reverse ∧
      rows.length = ((List.range nbf.reverse.length).map (fun a =>
        (nbf.reverse.drop (a + 1)).prod * (nbf.reverse.take a).prod *
          (nbf.reverse.getD a 0 - 2))).sum ∧
      ∀ row ∈ rows, ∀ e ∈ row, e.1 < nbf.prod) := by
  constructor
  · unfold Splinter.getSecondOrderFiniteDifferenceMatrix
    by_cases hall : nbf.all (fun x => 3 ≤ x)
    · rw [if_pos hall]
      simp only [List.all_eq_true, decide_eq_true_eq] at hall
      constructor
      · intro h
        exact absurd h (by simp)
      · rintro ⟨x, hx, hlt⟩
        exact absurd (hall x hx) (by omega)
    · rw [if_neg hall]
      simp only [List.all_eq_true, decide_eq_true_eq] at hall
      push_neg at hall
      obtain ⟨x, hx, hlt⟩ := hall
      exact ⟨fun _ => ⟨x, hx, by omega⟩, fun _ => rfl⟩
  · intro rows h
    unfold Splinter.getSecondOrderFiniteDifferenceMatrix at h
    by_cases hall : nbf.all (fun x => 3 ≤ x)
    swap
    · rw [if_neg hall] at h
      exact absurd h (by simp)
    rw [if_pos hall] at h
    have hx := Option.some.inj h
    subst hx
    have hdd : ∀ a, a < nbf.reverse.length → 3 ≤ nbf.reverse.getD a 0 := by
      intro a ha
      rw [List.getD_eq_getElem nbf.reverse 0 ha]
      have hmem : nbf.reverse[a] ∈ nbf.reverse := List.getElem_mem ha
      have hmem2 : nbf.reverse[a] ∈ nbf := (List.mem_reverse).mp hmem
      exact of_decide_eq_true ((List.all_eq_true.mp hall) _ hmem2)
    refine ⟨?_, ?_, ?_⟩
    · unfold Splinter.sofdRowsClaim
      apply List.flatMap_congr
      intro a _
      exact sofdAxisRows_eq_claim nbf.reverse a
    · rw [List.length_flatMap]
      have hmap : (List.range nbf.reverse.length).map
          (List.length ∘ fun a => Splinter.sofdAxisRows nbf.reverse a) =
          (List.range nbf.reverse.length).map (fun a =>
            (nbf.reverse.drop (a + 1)).prod * (nbf.reverse.take a).prod *
              (nbf.reverse.getD a 0 - 2)) :=
        List.map_congr_left (fun a _ => sofdAxisRows_length nbf.reverse a)
      rw [hmap]
    · intro row hrow e he
      rw [List.mem_flatMap] at hrow
      obtain ⟨a, ha, hrow⟩ := hrow
      rw [List.mem_range] at ha
      rw [← List.prod_reverse, prod_split nbf.reverse a ha]
      unfold Splinter.sofdAxisRows at hrow
      rw [← List.prod_eq_foldl, ← List.prod_eq_foldl] at hrow
      rw [List.mem_flatMap] at hrow
      obtain ⟨j, hj, hrow⟩ := hrow
      rw [List.mem_range] at hj
      rw [List.mem_flatMap] at hrow
      obtain ⟨l, hl, hrow⟩ := hrow
      rw [List.mem_range] at hl
      set L := (nbf.reverse.take a).prod with hL
      set dd := nbf.reverse.getD a 0 with hdd2
      set R := (nbf.reverse.drop (a + 1)).prod with hR
      have hbound : ∀ X Bd, X + 2 * L < Bd →
          ∀ e2 ∈ Splinter.sofdRow X L, e2.1 < Bd := by
        intro X Bd hX e2 he2
        simp only [Splinter.sofdRow, List.mem_cons, List.mem_singleton,
          List.not_mem_nil, or_false] at he2
        rcases he2 with rfl | rfl | rfl
        · show X < Bd
          omega
        · show X + L < Bd
          omega
        · show X + 2 * L < Bd
          omega
      by_cases ha0 : a = 0
      · rw [if_pos ha0] at hrow
        rw [List.mem_singleton] at hrow
        subst hrow
        have hL1 : L = 1 := by rw [hL, ha0]; simp
        refine hbound _ _ ?_ e he
        have hcb := col_bound hj hl (show (0 : ℕ) < L by omega) (hdd a ha)
        rw [hL1] at hcb ⊢
        simpa using hcb
      · rw [if_neg ha0] at hrow
        rw [List.mem_map] at hrow
        obtain ⟨n, hn, hrow⟩ := hrow
        rw [List.mem_range] at hn
        subst hrow
        exact hbound _ _ (col_bound hj hl hn (hdd a ha)) e he

/-- Witness for C4 on a one-variable spline with three basis functions: the
build succeeds with the single row `(+1, -2, +1)` at columns 0, 1, 2, which
matches the claimed layout. -/
theorem C4_difference_matrix_layout_witness :
    Splinter.getSecondOrderFiniteDifferenceMatrix [3] =
      some [[(0, 1), (1, -2), (2, 1)]] ∧
    [[((0 : ℕ), (1 : ℚ)), (1, -2), (2, 1)]] =
      Splinter.sofdRowsClaim (List.reverse [3]) := by
  have hsome : Splinter.getSecondOrderFiniteDifferenceMatrix [3] =
      some [[(0, 1), (1, -2), (2, 1)]] := rfl
  exact ⟨hsome,
    ((C4_difference_matrix_layout [3]).2 [[(0, 1), (1, -2), (2, 1)]] hsome).1⟩

/-! ## Theorems for the assembly, HFS and solver claims -/

/-- C3: `computeCoefficients` assembles the linear system by smoothing mode:
NONE gives `A = B`, `b = y`; IDENTITY gives `A = BᵀB + alpha·I_N`,
`b = Bᵀy`; PSPLINE gives `A = Bᵀ·W·B + lambda·DᵀD` and `b = Bᵀ·W·y` with the
initial `lambda = alpha`; and the weight matrix `W` is the m-by-m identity
when the stored weights are empty, else the diagonal matrix of the
weights. -/
theorem C3_smoothing_assembly {m N r : ℕ} (B : Matrix (Fin m) (Fin N) ℚ)
    (y : Fin m → ℚ) (weights : List ℚ) (alpha : ℚ)
    (D : Matrix (Fin r) (Fin N) ℚ) :
    Splinter.assembleSystem Splinter.Smoothing.NONE B y weights alpha D =
      ⟨m, B, y⟩ ∧
    Splinter.assembleSystem Splinter.Smoothing.IDENTITY B y weights alpha D =
      ⟨N, Bᵀ * B + alpha • (1 : Matrix (Fin N) (Fin N) ℚ), Bᵀ *ᵥ y⟩ ∧
    Splinter.assembleSystem Splinter.Smoothing.PSPLINE B y weights alpha D =
      ⟨N, Bᵀ * Splinter.getWeightMatrix m weights * B + alpha • (Dᵀ * D),
          Bᵀ *ᵥ (Splinter.getWeightMatrix m weights *ᵥ y)⟩ ∧
    (∀ i j : Fin m, Splinter.getWeightMatrix m weights i j =
      if i = j then (if weights.length = 0 then 1 else weights.getD i 0)
      else 0) := by
  refine ⟨rfl, rfl, ?_, ?_⟩
  · simp only [Splinter.assembleSystem]
    rw [Matrix.smul_mul, Matrix.mulVec_mulVec]
  · intro i j
    by_cases h : weights.length = 0
    · simp [Splinter.getWeightMatrix, h, Matrix.one_apply]
    · simp [Splinter.getWeightMatrix, h, Matrix.diagonal_apply]

/-- Arithmetic core of C5: for `d ≤ m < 2^32` the wrapped unsigned difference
`m - d` is the true difference. -/
theorem uSub32_eq_sub {m d : ℕ} (hd : d ≤ m) (hm : m < 2 ^ 32) :
    Splinter.uSub32 m d = m - d := by
  unfold Splinter.uSub32
  omega

/-- C5 counterexample: the claim states that every HFS iteration computes
`sigma² = ‖y - B·c‖²/(m - d - ED)` with the mathematical difference `m - d`.
The code subtracts `getNumSamples() - getNumVariables()` in `unsigned int`
arithmetic before any conversion to `double`, so for a build with fewer
samples than variables (reachable with scattered data) the denominator wraps
to `2^32 + m - d - ED` and the updated matrix differs from the claimed
one. -/
theorem C5_unsigned_wrap_counterexample :
    Splinter.hfsStep 1 2 (!![2] : Matrix (Fin 1) (Fin 1) ℚ) 1
      (1 : Matrix (Fin 1) (Fin 1) ℚ) ![1] 1 ≠
    Splinter.hfsStepClaim 1 2 (!![2] : Matrix (Fin 1) (Fin 1) ℚ) 1
      (1 : Matrix (Fin 1) (Fin 1) ℚ) ![1] 1 := by
  intro h
  have h00 := congrFun (congrFun h 0) 0
  simp [Splinter.hfsStep, Splinter.hfsStepClaim, Splinter.qInv, Splinter.sumSq,
    Splinter.uSub32, Matrix.mul_apply, Matrix.mulVec, Matrix.dotProduct,
    Fin.sum_univ_one, Matrix.trace, Matrix.diag, Matrix.one_apply,
    Matrix.transpose_apply] at h00
  norm_num at h00

/-- C5 as amended: for every PSPLINE build with `hfsIters = K` (and at least
as many samples as variables, `d ≤ m`; for `m < d` the code's unsigned
subtraction wraps, see the counterexample), the matrix handed to the solver
is exactly the K-fold iterate of the claimed HFS update — `A_inv` the dense
inverse of `A`, `ED = trace(A_inv·BᵀWB)`, `c = A_inv·(BᵀW·y)`,
`tau² = ‖D·c‖²/ED`, `sigma² = ‖y - B·c‖²/(m - d - ED)`,
`lambda = sigma²/tau²`, `A = BᵀWB + lambda·DᵀD` — started from the assembled
`A = BᵀWB + alpha·DᵀD`; and with `K = 0` the system solved is exactly that
initial one with `lambda = alpha`. -/
theorem C5_hfs_iterations (m d : ℕ) {N r : ℕ} (hd : d ≤ m) (hm : m < 2 ^ 32)
    (B : Matrix (Fin m) (Fin N) ℚ) (W : Matrix (Fin m) (Fin m) ℚ)
    (D : Matrix (Fin r) (Fin N) ℚ) (y : Fin m → ℚ) (alpha : ℚ) (K : ℕ) :
    Splinter.psplineFinalA m d B W D y alpha K =
      (Splinter.hfsStepClaim m d B W D y)^[K]
        (Bᵀ * W * B + alpha • (Dᵀ * D)) ∧
    Splinter.psplineFinalA m d B W D y alpha 0 =
      Bᵀ * W * B + alpha • (Dᵀ * D) := by
  have hcast : ((Splinter.uSub32 m d : ℕ) : ℚ) = (m : ℚ) - (d : ℚ) := by
    rw [uSub32_eq_sub hd hm, Nat.cast_sub hd]
  have hstep : Splinter.hfsStep m d B W D y = Splinter.hfsStepClaim m d B W D y := by
    funext A
    simp only [Splinter.hfsStep, Splinter.hfsStepClaim, hcast, Matrix.smul_mul]
  constructor
  · unfold Splinter.psplineFinalA
    rw [hstep, Matrix.smul_mul]
  · unfold Splinter.psplineFinalA
    rw [Function.iterate_zero_apply, Matrix.smul_mul]

/-- Witness for C5 with two samples and one variable: with zero iterations
the solver receives the assembled matrix itself. -/
theorem C5_hfs_iterations_witness :
    Splinter.psplineFinalA 2 1 (1 : Matrix (Fin 2) (Fin 2) ℚ) 1
      (1 : Matrix (Fin 2) (Fin 2) ℚ) ![1, 0] (1 / 2) 0 =
      (1 : Matrix (Fin 2) (Fin 2) ℚ)ᵀ * 1 * 1 +
        ((1 : ℚ) / 2) • ((1 : Matrix (Fin 2) (Fin 2) ℚ)ᵀ * 1) :=
  (C5_hfs_iterations 2 1 (by norm_num) (by norm_num) 1 1 1 ![1, 0] (1 / 2) 0).2

/-- C6: the solver tries a sparse LU solve first exactly when the system has
at least 100 rows, falling back to dense QR only when the sparse solve
fails; below 100 rows it goes directly to dense QR; and when the dense solve
fails (in whichever path reaches it) the build throws the solver-failure
message, which the binding surfaces as a nil handle plus the error. -/
theorem C6_solve_strategy {V : Type} (rows : ℕ) (sp dn : Option V) :
    (100 ≤ rows → ∀ v, sp = some v →
      Splinter.solveLinearSystem rows sp dn = Except.ok v) ∧
    (100 ≤ rows → sp = Option.none → ∀ v, dn = some v →
      Splinter.solveLinearSystem rows sp dn = Except.ok v) ∧
    (rows < 100 → ∀ v, dn = some v →
      Splinter.solveLinearSystem rows sp dn = Except.ok v) ∧
    (dn = Option.none → (rows < 100 ∨ sp = Option.none) →
      Splinter.solveLinearSystem rows sp dn =
        Except.error Splinter.solverFailureMessage ∧
      Splinter.goBuild (Splinter.solveLinearSystem rows sp dn) =
        (Option.none, some Splinter.solverFailureMessage)) := by
  refine ⟨fun hr v hsp => ?_, fun hr hsp v hdn => ?_, fun hr v hdn => ?_,
    fun hdn hcase => ?_⟩
  · simp [Splinter.solveLinearSystem, not_lt.mpr hr, hsp]
  · simp [Splinter.solveLinearSystem, not_lt.mpr hr, hsp, hdn]
  · simp [Splinter.solveLinearSystem, hr, hdn]
  · have hfail : Splinter.solveLinearSystem rows sp dn =
        Except.error Splinter.solverFailureMessage := by
      rcases hcase with hr | hsp
      · simp [Splinter.solveLinearSystem, hr, hdn]
      · rcases Nat.lt_or_ge rows 100 with hr | hr
        · simp [Splinter.solveLinearSystem, hr, hdn]
        · simp [Splinter.solveLinearSystem, not_lt.mpr hr, hsp, hdn]
    exact ⟨hfail, by rw [hfail]; rfl⟩

/-- Witness for C6: a 120-row system uses the sparse result when available
and the dense result when not; a 9-row system uses the dense result even
though the sparse solver would have succeeded; a failed dense solve on a
small system surfaces as a nil handle plus the solver error. -/
theorem C6_solve_strategy_witness :
    Splinter.solveLinearSystem 120 (some 3) (Option.none : Option ℕ) =
      Except.ok 3 ∧
    Splinter.solveLinearSystem 120 Option.none (some 4) = Except.ok 4 ∧
    Splinter.solveLinearSystem 9 (some 3) (some 5) = Except.ok 5 ∧
    Splinter.goBuild (Splinter.solveLinearSystem 9 (some 3)
        (Option.none : Option ℕ)) =
      (Option.none, some Splinter.solverFailureMessage) :=
  ⟨(C6_solve_strategy 120 (some 3) Option.none).1 (by norm_num) 3 rfl,
   (C6_solve_strategy 120 Option.none (some 4)).2.1 (by norm_num) rfl 4 rfl,
   (C6_solve_strategy 9 (some 3) (some 5)).2.2.1 (by norm_num) 5 rfl,
   ((C6_solve_strategy 9 (some 3) Option.none).2.2.2 rfl
      (Or.inl (by norm_num))).2⟩

/-! ## Theorems for the setter and binding claims -/

/-- C7 counterexample: the claim states that the per-axis vector `degree`
overload rejects any degree greater than 5, leaving the configuration
unchanged.  The code's vector overload checks only the length: a degree-6
vector is accepted without error and is stored. -/
theorem C7_vector_degree_six_accepted :
    (Splinter.setDegreeVector 1 (Splinter.defaultBuilderConfig 1) [6]).2 =
      Option.none ∧
    (Splinter.setDegreeVector 1 (Splinter.defaultBuilderConfig 1) [6]).1.degrees =
      [6] :=
  ⟨rfl, rfl⟩

/-- C7 as amended: every Builder setter validates its argument and fails
synchronously on violation, returning the stored configuration unchanged
(the C++ setters throw before assigning): alpha < 0 and padding < 0 are
rejected; the scalar degree setter rejects degrees above 5; the degrees,
numBasisFunctions, weights and bounds vectors are length-checked against d
(respectively m).  The one amendment forced by the counterexample: the
per-axis vector degree overload validates only the length and accepts any
entries, including degrees above 5. -/
theorem C7_setter_validation (d m : ℕ) (c : Splinter.BuilderConfig) :
    (∀ a : ℚ, a < 0 → Splinter.setAlpha c a =
      (c, some "BSpline::Builder::alpha: alpha must be non-negative.")) ∧
    (∀ a : ℚ, 0 ≤ a → Splinter.setAlpha c a =
      ({ c with alpha := a }, Option.none)) ∧
    (∀ pd : ℚ, pd < 0 → Splinter.setPadding c pd =
      (c, some "BSpline::Builder::padding: padding must be non-negative.")) ∧
    (∀ p : ℕ, 5 < p → Splinter.setDegreeScalar d c p =
      (c, some "BSpline::Builder: Only degrees in range [0, 5] are supported.")) ∧
    (∀ ds : List ℕ, ds.length ≠ d → Splinter.setDegreeVector d c ds =
      (c, some "BSpline::Builder: Inconsistent length on degree vector.")) ∧
    (∀ ds : List ℕ, ds.length = d → Splinter.setDegreeVector d c ds =
      ({ c with degrees := ds }, Option.none)) ∧
    (∀ nb : List ℕ, nb.length ≠ d → Splinter.setNumBasisFunctionsVector d c nb =
      (c, some "BSpline::Builder: Inconsistent length on numBasisFunctions vector.")) ∧
    (∀ w : List ℚ, w.length ≠ m → Splinter.setWeights m c w =
      (c, some "BSpline::Builder::weights: weight vector length should equal number of samples in DataTable")) ∧
    (∀ b : List (Option ℚ × Option ℚ), b.length ≠ 0 → b.length ≠ d →
      Splinter.setBounds d c b =
      (c, some "BSpline::Builder::bounds: bounds vector length should be 0 or equal to number of variables in DataTable")) := by
  refine ⟨fun a ha => ?_, fun a ha => ?_, fun pd hpd => ?_, fun p hp => ?_,
    fun ds hds => ?_, fun ds hds => ?_, fun nb hnb => ?_, fun w hw => ?_,
    fun b hb0 hbd => ?_⟩
  · simp [Splinter.setAlpha, ha]
  · simp [Splinter.setAlpha, not_lt.mpr ha]
  · simp [Splinter.setPadding, hpd]
  · simp [Splinter.setDegreeScalar, Splinter.getBSplineDegrees, hp]
  · simp [Splinter.setDegreeVector, hds]
  · simp [Splinter.setDegreeVector, hds]
  · simp [Splinter.setNumBasisFunctionsVector, hnb]
  · simp [Splinter.setWeights, hw]
  · simp [Splinter.setBounds, hb0, hbd]

/-- Witness for C7 at concrete inputs: a negative alpha, an over-limit scalar
degree and a wrong-length degree vector are each rejected with the
configuration returned unchanged. -/
theorem C7_setter_validation_witness :
    Splinter.setAlpha (Splinter.defaultBuilderConfig 1) (-1) =
      (Splinter.defaultBuilderConfig 1,
       some "BSpline::Builder::alpha: alpha must be non-negative.") ∧
    Splinter.setDegreeScalar 1 (Splinter.defaultBuilderConfig 1) 6 =
      (Splinter.defaultBuilderConfig 1,
       some "BSpline::Builder: Only degrees in range [0, 5] are supported.") ∧
    Splinter.setDegreeVector 1 (Splinter.defaultBuilderConfig 1) [2, 2] =
      (Splinter.defaultBuilderConfig 1,
       some "BSpline::Builder: Inconsistent length on degree vector.") :=
  ⟨(C7_setter_validation 1 1 (Splinter.defaultBuilderConfig 1)).1 (-1) (by norm_num),
   (C7_setter_validation 1 1 (Splinter.defaultBuilderConfig 1)).2.2.2.1 6
     (by norm_num),
   (C7_setter_validation 1 1 (Splinter.defaultBuilderConfig 1)).2.2.2.2.1 [2, 2]
     (by norm_num)⟩

/-- C9: for any integer code outside 0, 1, 2 both
`splinter_bspline_builder_set_knot_spacing` and
`splinter_bspline_builder_set_smoothing` record an invalid-argument error
message and return the configuration unchanged, so the previously configured
knot spacing (respectively smoothing) is what a later `build()` sees. -/
theorem C9_invalid_enum_code_atomic (c : Splinter.BuilderConfig) (code : ℤ)
    (h0 : code ≠ 0) (h1 : code ≠ 1) (h2 : code ≠ 2) :
    Splinter.setKnotSpacingCode c code = (c, some "Error: Invalid knot spacing!") ∧
    Splinter.setSmoothingCode c code = (c, some "Error: Invalid smoothing!") := by
  constructor
  · simp [Splinter.setKnotSpacingCode, h0, h1, h2]
  · simp [Splinter.setSmoothingCode, h0, h1, h2]

/-- Witness for C9 at the concrete invalid code 3. -/
theorem C9_invalid_enum_code_atomic_witness :
    Splinter.setKnotSpacingCode (Splinter.defaultBuilderConfig 2) 3 =
      (Splinter.defaultBuilderConfig 2, some "Error: Invalid knot spacing!") ∧
    Splinter.setSmoothingCode (Splinter.defaultBuilderConfig 2) 3 =
      (Splinter.defaultBuilderConfig 2, some "Error: Invalid smoothing!") :=
  C9_invalid_enum_code_atomic (Splinter.defaultBuilderConfig 2) 3
    (by decide) (by decide) (by decide)

/-- C10 counterexample: the claim says that whenever all supplied columns
share one length n, the data is forwarded to the core with sample count n —
in particular for n = 0.  But with a single empty column the Go code reaches
`&concat[0]` on a length-0 slice and panics instead of calling the core. -/
theorem C10_empty_columns_panic :
    Splinter.addColumns [([] : List ℚ)] =
      Splinter.AddColumnsOutcome.panicEmptyIndex ∧
    Splinter.addColumns [([] : List ℚ)] ≠
      Splinter.AddColumnsOutcome.coreCall [] 0 0 := by
  exact ⟨rfl, by decide⟩

/-- C10 as amended: `AddColumns` with zero column arguments succeeds without
any core call; if some column's length differs from the first column's (in
particular whenever two supplied columns have different lengths) it returns
`ErrLengthMismatch` before any core call; when all columns share one length
n ≥ 1 it forwards the concatenated columns with sample count n and
dimensionality `number of columns - 1`; the amendment forced by the
counterexample: when the shared length is 0 the call panics while indexing
the empty concatenated slice instead of reaching the core. -/
theorem C10_addColumns_spec :
    (Splinter.addColumns [] = Splinter.AddColumnsOutcome.success) ∧
    (∀ (c0 : List ℚ) (rest : List (List ℚ)), (∃ c ∈ rest, c.length ≠ c0.length) →
      Splinter.addColumns (c0 :: rest) =
        Splinter.AddColumnsOutcome.lengthMismatch) ∧
    (∀ (c0 : List ℚ) (rest : List (List ℚ)),
      (∀ c ∈ rest, c.length = c0.length) → 0 < c0.length →
      Splinter.addColumns (c0 :: rest) =
        Splinter.AddColumnsOutcome.coreCall ((c0 :: rest).flatten) c0.length
          rest.length) ∧
    (∀ (c0 : List ℚ) (rest : List (List ℚ)),
      (∀ c ∈ rest, c.length = c0.length) → c0.length = 0 →
      Splinter.addColumns (c0 :: rest) =
        Splinter.AddColumnsOutcome.panicEmptyIndex) := by
  refine ⟨rfl, fun c0 rest h => ?_, fun c0 rest h h0 => ?_, fun c0 rest h h0 => ?_⟩
  · obtain ⟨c, hc, hne⟩ := h
    have : ¬ (rest.all (fun c => c.length = c0.length)) := by
      simp only [List.all_eq_true, decide_eq_true_eq]
      intro hall
      exact hne (hall c hc)
    simp [Splinter.addColumns, this]
  · have hall : rest.all (fun c => c.length = c0.length) = true := by
      simp only [List.all_eq_true, decide_eq_true_eq]
      exact h
    have hlen : ((c0 :: rest).flatten).length ≠ 0 := by
      simp only [List.length_flatten, List.map_cons, List.sum_cons]
      omega
    simp [Splinter.addColumns, hall, hlen]
    intro hc0
    rw [hc0] at h0
    simp at h0
  · have hall : rest.all (fun c => c.length = c0.length) = true := by
      simp only [List.all_eq_true, decide_eq_true_eq]
      exact h
    have hc0 : c0 = [] := List.length_eq_zero.mp h0
    have hsum : (rest.map List.length).sum = 0 := by
      apply List.sum_eq_zero
      intro x hx
      obtain ⟨c, hc, rfl⟩ := List.mem_map.mp hx
      exact (h c hc).trans h0
    simp [Splinter.addColumns, hall, hc0, hsum]
    intro x hx
    exact List.length_eq_zero.mp ((h x hx).trans h0)

/-- Witness for C10 at concrete inputs: mismatched lengths are rejected, and
two length-2 columns are forwarded as a 2-sample, 1-dimensional batch. -/
theorem C10_addColumns_spec_witness :
    Splinter.addColumns [[1, 2], [3]] =
      Splinter.AddColumnsOutcome.lengthMismatch ∧
    Splinter.addColumns [[1, 2], [3, 4]] =
      Splinter.AddColumnsOutcome.coreCall [1, 2, 3, 4] 2 1 := by
  constructor
  · exact C10_addColumns_spec.2.1 [1, 2] [[3]] ⟨[3], by simp⟩
  · have h := C10_addColumns_spec.2.2.1 [1, 2] [[3, 4]] (by simp) (by simp)
    simpa using h

end Splinter
